import Mathlib

/-
Shallow embedding of the hack_asm assembler (Rust) for verification.

Sources embedded:
  src/hack_int.rs          — HackInt (bounded integer), try_new, parse
  src/symbol_table.rs      — BUILT_IN map, SymbolTable with set/get and the
                             free-variable index
  src/instructions.rs      — DEST_TABLE / COMP_TABLE / JMP_TABLE and
                             CInstruction::compile
  src/assembler_context.rs — AssemblerContext: register_label,
                             push_instruction, feed_instruction,
                             get_or_create_variable
  src/parsing/parser.rs    — parse_str: splits a classified line stream into
                             instructions and (label, index) pairs
  src/assembler.rs         — Assembler::assemble: register all labels, then
                             feed every instruction, in that order

Machine integers are modelled as Nat; the one place the code converts with a
possible wrap (`address as u16` in register_label) is modelled with an
explicit `% 65536`.  Fallible Rust functions returning Result are modelled
with Except.
-/

deriving instance DecidableEq for Except

/-- Model of the error kinds of Rust's `std::num::ParseIntError` that
`str::parse::<u16>` can produce on the inputs relevant here: a non-digit
character (or empty input) versus a numeral exceeding the u16 range. -/
inductive IntErrorKind where
  | invalidDigit : IntErrorKind
  | posOverflow : IntErrorKind
deriving DecidableEq

/-- Error type of src/hack_int.rs: `ParseHackIntError`. -/
inductive ParseHackIntError where
  | SizeExceeded : ParseHackIntError
  | ParseInt : IntErrorKind → ParseHackIntError
deriving DecidableEq

namespace HackInt

/-- `HackInt::MAX` from src/hack_int.rs. -/
def MAX : Nat := 32767

/-- `HackInt::try_new` from src/hack_int.rs: rejects any value above `MAX`.
The Rust parameter is a u16, so callers only ever pass values below 65536. -/
def try_new (value : Nat) : Except ParseHackIntError Nat :=
  if value > MAX then .error .SizeExceeded else .ok value

/-- Model of Rust's `str::parse::<u16>`: an optional leading `+`, then a
non-empty run of decimal digits, valued below 65536; a malformed input fails
with `invalidDigit`, a well-formed numeral at 65536 or above fails with
`posOverflow`.  The string is processed through its character list. -/
def parseU16 (input : String) : Except IntErrorKind Nat :=
  let t := match input.data with
    | '+' :: rest => rest
    | chars => chars
  if t.isEmpty then .error .invalidDigit
  else if t.all Char.isDigit then
    let v := t.foldl (fun acc c => acc * 10 + (c.toNat - 48)) 0
    if v > 65535 then .error .posOverflow else .ok v
  else .error .invalidDigit

/-- `HackInt::parse` from src/hack_int.rs: `input.parse::<u16>()?` followed by
`try_new`; the integer-parse failure is wrapped into `ParseInt`. -/
def parse (input : String) : Except ParseHackIntError Nat :=
  match parseU16 input with
  | .error e => .error (.ParseInt e)
  | .ok value => try_new value

end HackInt

/-- Error type of `SymbolTable::get` (src/symbol_table.rs). -/
inductive SymbolTableGetError where
  | NotDefined : String → SymbolTableGetError
deriving DecidableEq

/-- Error type of `SymbolTable::set` (src/symbol_table.rs). -/
inductive SymbolTableSetError where
  | RedefinedBuiltIn : String → SymbolTableSetError
  | Redefined : String → SymbolTableSetError
deriving DecidableEq

/-- The `BUILT_IN` phf map of src/symbol_table.rs. -/
def BUILT_IN : String → Option Nat
  | "R0" => some 0
  | "R1" => some 1
  | "R2" => some 2
  | "R3" => some 3
  | "R4" => some 4
  | "R5" => some 5
  | "R6" => some 6
  | "R7" => some 7
  | "R8" => some 8
  | "R9" => some 9
  | "R10" => some 10
  | "R11" => some 11
  | "R12" => some 12
  | "R13" => some 13
  | "R14" => some 14
  | "R15" => some 15
  | "SCREEN" => some 16384
  | "KBD" => some 24576
  | "SP" => some 0
  | "LCL" => some 1
  | "ARG" => some 2
  | "THIS" => some 3
  | "THAT" => some 4
  | _ => none

/-- `SymbolTable` from src/symbol_table.rs; the HashMap is modelled as an
association list (`set` only ever inserts a key that is absent, so the
representation choice is unobservable). -/
structure SymbolTable where
  table : List (String × Nat)
  variable_index : Nat
deriving DecidableEq

namespace SymbolTable

/-- `SymbolTable::new`: empty user map, free-variable index 16. -/
def new : SymbolTable := ⟨[], 16⟩

/-- `SymbolTable::set` from src/symbol_table.rs: a built-in name is rejected
first; an occupied user entry is rejected; otherwise the pair is inserted. -/
def set (st : SymbolTable) (name : String) (value : Nat) :
    Except SymbolTableSetError SymbolTable :=
  if (BUILT_IN name).isSome then .error (.RedefinedBuiltIn name)
  else
    match st.table.lookup name with
    | some _ => .error (.Redefined name)
    | none => .ok { st with table := (name, value) :: st.table }

/-- `SymbolTable::get` from src/symbol_table.rs: built-ins first, then the
user map, otherwise `NotDefined`. -/
def get (st : SymbolTable) (name : String) : Except SymbolTableGetError Nat :=
  match BUILT_IN name with
  | some builtIn => .ok builtIn
  | none =>
    match st.table.lookup name with
    | some userDefined => .ok userDefined
    | none => .error (.NotDefined name)

/-- `SymbolTable::get_variable_index` from src/symbol_table.rs. -/
def get_variable_index (st : SymbolTable) : Nat := st.variable_index

/-- `SymbolTable::increment_variable_index` from src/symbol_table.rs: the
index is re-validated through `HackInt::try_new`. -/
def increment_variable_index (st : SymbolTable) :
    Except ParseHackIntError SymbolTable :=
  match HackInt.try_new (st.variable_index + 1) with
  | .ok index => .ok { st with variable_index := index }
  | .error e => .error e

end SymbolTable

/-- Modelled from the spec: `crate::constants::ROM_SIZE` is referenced by
src/assembler_context.rs but the constants module is not under src/; §4.4 of
the specification bounds the instruction counter by the ROM capacity 32767. -/
def ROM_SIZE : Nat := 32767

/-- Modelled from the spec: `crate::constants::MEMORY_SIZE` is referenced by
src/assembler_context.rs but the constants module is not under src/; §4.2 of
the specification says variables occupy the address range [16, 16383], and the
code rejects allocation when the cursor is `>= MEMORY_SIZE`, so the bound is
16384. -/
def MEMORY_SIZE : Nat := 16384

/-- Error type of src/instructions.rs used by `CInstruction::compile` (the
wrapper variants for symbol-table and integer errors are not produced by
`compile` and are omitted). -/
inductive CompilationError where
  | Destination : String → CompilationError
  | Computation : String → CompilationError
  | Jump : String → CompilationError
deriving DecidableEq

/-- `CInstruction` from src/instructions.rs: an optional destination mnemonic,
a computation mnemonic and an optional jump mnemonic. -/
structure CInstruction where
  destination : Option String
  computation : String
  jump : Option String
deriving DecidableEq

namespace CInstruction

/-- `CInstruction::DEST_TABLE` from src/instructions.rs. -/
def DEST_TABLE : String → Option Nat
  | "M" => some 0b0000000000001000
  | "D" => some 0b0000000000010000
  | "MD" => some 0b0000000000011000
  | "A" => some 0b0000000000100000
  | "AM" => some 0b0000000000101000
  | "AD" => some 0b0000000000110000
  | "AMD" => some 0b0000000000111000
  | _ => none

/-- `CInstruction::COMP_TABLE` from src/instructions.rs. -/
def COMP_TABLE : String → Option Nat
  | "0" => some 0b0000101010000000
  | "1" => some 0b0000111111000000
  | "-1" => some 0b0000111010000000
  | "D" => some 0b0000001100000000
  | "A" => some 0b0000110000000000
  | "!D" => some 0b0000001101000000
  | "!A" => some 0b0000110001000000
  | "-D" => some 0b0000001111000000
  | "-A" => some 0b0000110011000000
  | "D+1" => some 0b0000011111000000
  | "A+1" => some 0b0000110111000000
  | "D-1" => some 0b0000001110000000
  | "A-1" => some 0b0000110010000000
  | "D+A" => some 0b0000000010000000
  | "A+D" => some 0b0000000010000000
  | "D-A" => some 0b0000010011000000
  | "A-D" => some 0b0000000111000000
  | "D&A" => some 0b0000000000000000
  | "A&D" => some 0b0000000000000000
  | "D|A" => some 0b0000010101000000
  | "A|D" => some 0b0000010101000000
  | "M" => some 0b0001110000000000
  | "!M" => some 0b0001110001000000
  | "-M" => some 0b0001110011000000
  | "M+1" => some 0b0001110111000000
  | "M-1" => some 0b0001110010000000
  | "D+M" => some 0b0001000010000000
  | "M+D" => some 0b0001000010000000
  | "D-M" => some 0b0001010011000000
  | "M-D" => some 0b0001000111000000
  | "D&M" => some 0b0001000000000000
  | "M&D" => some 0b0001000000000000
  | "D|M" => some 0b0001010101000000
  | "M|D" => some 0b0001010101000000
  | _ => none

/-- `CInstruction::JMP_TABLE` from src/instructions.rs (including its
empty-string entry). -/
def JMP_TABLE : String → Option Nat
  | "JGT" => some 0b0000000000000001
  | "JEQ" => some 0b0000000000000010
  | "JGE" => some 0b0000000000000011
  | "JLT" => some 0b0000000000000100
  | "JNE" => some 0b0000000000000101
  | "JLE" => some 0b0000000000000110
  | "JMP" => some 0b0000000000000111
  | "" => some 0b0000000000000000
  | _ => none

/-- The destination step of `CInstruction::compile`: an absent destination
contributes no bits; a present one is looked up in `DEST_TABLE`. -/
def destination_bits (c : CInstruction) : Except CompilationError Nat :=
  match c.destination with
  | none => .ok 0
  | some dest =>
    match DEST_TABLE dest with
    | some bits => .ok bits
    | none => .error (.Destination dest)

/-- The computation step of `CInstruction::compile`: always looked up in
`COMP_TABLE`. -/
def computation_bits (c : CInstruction) : Except CompilationError Nat :=
  match COMP_TABLE c.computation with
  | some bits => .ok bits
  | none => .error (.Computation c.computation)

/-- The jump step of `CInstruction::compile`: an absent jump contributes no
bits; a present one is looked up in `JMP_TABLE`. -/
def jump_bits (c : CInstruction) : Except CompilationError Nat :=
  match c.jump with
  | none => .ok 0
  | some jump =>
    match JMP_TABLE jump with
    | some bits => .ok bits
    | none => .error (.Jump jump)

/-- `CInstruction::compile` from src/instructions.rs: start from the fixed
`111` opcode prefix and OR in the destination, computation and jump bit
groups, in that order, each resolved through its table. -/
def compile (c : CInstruction) : Except CompilationError Nat :=
  match destination_bits c with
  | .error e => .error e
  | .ok dest =>
    match computation_bits c with
    | .error e => .error e
    | .ok comp =>
      match jump_bits c with
      | .error e => .error e
      | .ok jump => .ok (((0b1110000000000000 ||| dest) ||| comp) ||| jump)

end CInstruction

/-- `AValue` from src/instructions.rs (used by src/parsing/a_instruction.rs):
an A-instruction payload is a symbol or a literal. -/
inductive AValue where
  | Symbol : String → AValue
  | Literal : Nat → AValue
deriving DecidableEq

/-- `AInstruction` from src/instructions.rs as constructed by the parser. -/
structure AInstruction where
  value : AValue
deriving DecidableEq

/-- `ParsedInstruction` from src/parsing/mod.rs. -/
inductive ParsedInstruction where
  | AInstruction : AInstruction → ParsedInstruction
  | CInstruction : CInstruction → ParsedInstruction
deriving DecidableEq

/-- `AssemblerError` from src/assembler_context.rs, extended with a wrapper
for `CompilationError`: in the Rust pipeline the closed instruction type makes
a table miss unreachable (spec §4.5), while the string-keyed embedding of
`CInstruction` keeps `compile` fallible, so the error is carried through. -/
inductive AssemblerError where
  | TooManyVariables : AssemblerError
  | TooManyInstructions : AssemblerError
  | SymbolTableSetError : SymbolTableSetError → AssemblerError
  | CompilationError : CompilationError → AssemblerError
deriving DecidableEq

/-- `AssemblerContext` from src/assembler_context.rs. -/
structure AssemblerContext where
  symbol_table : SymbolTable
  current_variable_address : Nat
  current_label_address : Nat
  output : List Nat
deriving DecidableEq

namespace AssemblerContext

/-- `AssemblerContext::default`: fresh table, variable cursor 16, label
counter 0, empty output. -/
def default : AssemblerContext := ⟨SymbolTable.new, 16, 0, []⟩

/-- `AssemblerContext::register_label` from src/assembler_context.rs: the
usize index is converted with `address as u16` (a wrapping conversion,
modelled as `% 65536`), wrapped via `HackInt::new_unchecked` — no range
check — and stored through `SymbolTable::set`. -/
def register_label (ctx : AssemblerContext) (name : String) (address : Nat) :
    Except AssemblerError AssemblerContext :=
  let address := address % 65536
  match ctx.symbol_table.set name address with
  | .ok st => .ok { ctx with symbol_table := st }
  | .error e => .error (.SymbolTableSetError e)

/-- `AssemblerContext::push_instruction` from src/assembler_context.rs: a full
output buffer fails before the word is appended; otherwise the word is pushed
and the label counter incremented (unchecked in the source). -/
def push_instruction (ctx : AssemblerContext) (bits : Nat) :
    Except AssemblerError AssemblerContext :=
  if ctx.output.length ≥ ROM_SIZE then .error .TooManyInstructions
  else
    .ok { ctx with
            output := ctx.output ++ [bits],
            current_label_address := ctx.current_label_address + 1 }

/-- `AssemblerContext::get_or_create_variable` from src/assembler_context.rs,
with the Rust `&mut self` threaded explicitly: the final state is returned
next to the result, so the no-mutation-on-early-return behaviour is visible. -/
def get_or_create_variable (ctx : AssemblerContext) (name : String) :
    Except AssemblerError Nat × AssemblerContext :=
  match ctx.symbol_table.get name with
  | .ok value => (.ok value, ctx)
  | .error _ =>
    if ctx.current_variable_address ≥ MEMORY_SIZE then
      (.error .TooManyVariables, ctx)
    else
      match ctx.symbol_table.set name ctx.current_variable_address with
      | .error e => (.error (.SymbolTableSetError e), ctx)
      | .ok st =>
        (.ok ctx.current_variable_address,
         { ctx with
             symbol_table := st,
             current_variable_address := ctx.current_variable_address + 1 })

end AssemblerContext

/-- Modelled from the spec: `AInstruction::to_u16` is called by
`feed_instruction` but is not under src/; per §4.4 a literal's value is the
word directly and a symbol resolves through the context's
get-or-lazily-allocate protocol, i.e. `get_or_create_variable`. -/
def AInstruction.to_u16 (i : AInstruction) (ctx : AssemblerContext) :
    Except AssemblerError (Nat × AssemblerContext) :=
  match i.value with
  | .Literal v => .ok (v, ctx)
  | .Symbol name =>
    match ctx.get_or_create_variable name with
    | (.ok value, ctx) => .ok (value, ctx)
    | (.error e, _) => .error e

/-- `AssemblerContext::feed_instruction` from src/assembler_context.rs: an
A-instruction is resolved to its word (possibly allocating a variable) and
pushed; a C-instruction is encoded by `CInstruction::compile` and pushed. -/
def AssemblerContext.feed_instruction (ctx : AssemblerContext)
    (instr : ParsedInstruction) : Except AssemblerError AssemblerContext :=
  match instr with
  | .AInstruction i =>
    match AInstruction.to_u16 i ctx with
    | .error e => .error e
    | .ok (bits, ctx) => ctx.push_instruction bits
  | .CInstruction i =>
    match i.compile with
    | .error e => .error (.CompilationError e)
    | .ok bits => ctx.push_instruction bits

/-- Modelled from the spec: the pest grammar file `grammar/hack.pest` used by
src/parsing/parser.rs is not under src/, so a source line arrives already
classified into the three shapes of §4.3 (the grammar's `at_instruction`,
`c_instruction` and `label` rules), with the A-instruction payload already
split into symbol versus literal as src/parsing/a_instruction.rs does. -/
inductive Line where
  | at_instruction : AValue → Line
  | c_instruction : CInstruction → Line
  | label : String → Line
deriving DecidableEq

/-- `ParserOutput` from src/parsing/parser.rs. -/
structure ParserOutput where
  instructions : List ParsedInstruction
  labels : List (String × Nat)
deriving DecidableEq

/-- The loop body of `parse_str` (src/parsing/parser.rs): an instruction line
is appended to `instructions`; a label line is paired with the current
`instructions.len()` and appended to `labels`. -/
def parse_str_go (lines : List Line) (instructions : List ParsedInstruction)
    (labels : List (String × Nat)) : ParserOutput :=
  match lines with
  | [] => ⟨instructions, labels⟩
  | .at_instruction v :: rest =>
    parse_str_go rest (instructions ++ [.AInstruction ⟨v⟩]) labels
  | .c_instruction c :: rest =>
    parse_str_go rest (instructions ++ [.CInstruction c]) labels
  | .label name :: rest =>
    parse_str_go rest instructions (labels ++ [(name, instructions.length)])

/-- `parse_str` from src/parsing/parser.rs, over the classified line stream. -/
def parse_str (input : List Line) : ParserOutput :=
  parse_str_go input [] []

/-- The first loop of `Assembler::assemble` (src/assembler.rs): register every
(label, index) pair, stopping at the first error. -/
def register_labels (ctx : AssemblerContext) :
    List (String × Nat) → Except AssemblerError AssemblerContext
  | [] => .ok ctx
  | (name, index) :: rest =>
    match ctx.register_label name index with
    | .error e => .error e
    | .ok ctx => register_labels ctx rest

/-- The second loop of `Assembler::assemble` (src/assembler.rs): feed every
instruction in original order, stopping at the first error. -/
def feed_instructions (ctx : AssemblerContext) :
    List ParsedInstruction → Except AssemblerError AssemblerContext
  | [] => .ok ctx
  | instr :: rest =>
    match ctx.feed_instruction instr with
    | .error e => .error e
    | .ok ctx => feed_instructions ctx rest

/-- `Assembler::assemble` from src/assembler.rs: parse, then register all
labels, then feed all instructions, returning the whole output word list or
the first error (all-or-nothing). -/
def assemble (input : List Line) : Except AssemblerError (List Nat) :=
  let parser_output := parse_str input
  match register_labels AssemblerContext.default parser_output.labels with
  | .error e => .error e
  | .ok ctx =>
    match feed_instructions ctx parser_output.instructions with
    | .error e => .error e
    | .ok ctx => .ok ctx.output

/-- The six-line example program of spec §8 (no labels, no variables), in the
classified line form. -/
def example_program_six : List Line :=
  [.at_instruction (.Literal 2),
   .c_instruction ⟨some "D", "A", none⟩,
   .at_instruction (.Literal 3),
   .c_instruction ⟨some "D", "D+A", none⟩,
   .at_instruction (.Literal 0),
   .c_instruction ⟨some "M", "D", none⟩]

/-- The ten-line forward-reference example program of spec §8, in the
classified line form. -/
def example_program_ten : List Line :=
  [.at_instruction (.Symbol "i"),
   .c_instruction ⟨some "M", "1", none⟩,
   .label "LOOP",
   .at_instruction (.Symbol "i"),
   .c_instruction ⟨some "D", "M", none⟩,
   .at_instruction (.Symbol "END"),
   .c_instruction ⟨none, "D", some "JEQ"⟩,
   .at_instruction (.Symbol "END"),
   .c_instruction ⟨none, "0", some "JMP"⟩,
   .label "END"]

/-- Count of the instruction-producing lines of a line stream (labels produce
none). -/
def instruction_line_count : List Line → Nat
  | [] => 0
  | .at_instruction _ :: rest => 1 + instruction_line_count rest
  | .c_instruction _ :: rest => 1 + instruction_line_count rest
  | .label _ :: rest => instruction_line_count rest

lemma parse_str_go_append (l₁ l₂ : List Line) (i : List ParsedInstruction)
    (lb : List (String × Nat)) :
    parse_str_go (l₁ ++ l₂) i lb =
      parse_str_go l₂ (parse_str_go l₁ i lb).instructions
        (parse_str_go l₁ i lb).labels := by
  induction l₁ generalizing i lb with
  | nil => simp [parse_str_go]
  | cons hd tl ih => cases hd <;> simp [parse_str_go, ih]

lemma parse_str_go_instructions_length (lines : List Line)
    (i : List ParsedInstruction) (lb : List (String × Nat)) :
    (parse_str_go lines i lb).instructions.length =
      i.length + instruction_line_count lines := by
  induction lines generalizing i lb with
  | nil => simp [parse_str_go, instruction_line_count]
  | cons hd tl ih =>
    cases hd <;> simp [parse_str_go, instruction_line_count, ih] <;> omega

lemma parse_str_go_labels_mono (lines : List Line) :
    ∀ (i : List ParsedInstruction) (lb : List (String × Nat))
      (p : String × Nat), p ∈ lb → p ∈ (parse_str_go lines i lb).labels := by
  induction lines with
  | nil => intro i lb p hp; simpa [parse_str_go] using hp
  | cons hd tl ih =>
    intro i lb p hp
    cases hd with
    | at_instruction v => simpa [parse_str_go] using ih _ _ _ hp
    | c_instruction c => simpa [parse_str_go] using ih _ _ _ hp
    | label name =>
      simpa [parse_str_go] using ih _ _ _ (List.mem_append_left _ hp)

lemma set_ok_builtin_none {st st' : SymbolTable} {name : String} {value : Nat}
    (h : st.set name value = .ok st') :
    BUILT_IN name = none ∧ st.table.lookup name = none ∧
      st' = { st with table := (name, value) :: st.table } := by
  unfold SymbolTable.set at h
  split at h
  · exact absurd h (by simp)
  · rename_i hb
    split at h
    · exact absurd h (by simp)
    · rename_i hl
      refine ⟨Option.not_isSome_iff_eq_none.mp (by simpa using hb), hl, ?_⟩
      exact (Except.ok.injEq _ _).mp h.symm

lemma set_get_self {st st' : SymbolTable} {name : String} {value : Nat}
    (h : st.set name value = .ok st') : st'.get name = .ok value := by
  obtain ⟨hb, hl, rfl⟩ := set_ok_builtin_none h
  unfold SymbolTable.get
  simp [hb, List.lookup]

lemma set_preserves_get {st st' : SymbolTable} {n m : String} {v w : Nat}
    (hget : st.get n = .ok v) (hset : st.set m w = .ok st') :
    st'.get n = .ok v := by
  obtain ⟨hb, hl, rfl⟩ := set_ok_builtin_none hset
  unfold SymbolTable.get at hget ⊢
  cases hbn : BUILT_IN n with
  | some b => simpa [hbn] using hget
  | none =>
    simp only [hbn] at hget ⊢
    by_cases hnm : n = m
    · subst hnm
      simp [hl] at hget
    · cases hln : st.table.lookup n with
      | none => simp [hln] at hget
      | some u =>
        simp only [hln] at hget
        have hne : (n == m) = false := by simpa using hnm
        simpa [List.lookup, hne, hln] using hget

lemma register_label_ok {ctx ctx' : AssemblerContext} {name : String}
    {address : Nat} (h : ctx.register_label name address = .ok ctx') :
    ∃ st', ctx.symbol_table.set name (address % 65536) = .ok st' ∧
      ctx' = { ctx with symbol_table := st' } := by
  unfold AssemblerContext.register_label at h
  cases hs : ctx.symbol_table.set name (address % 65536) with
  | ok st' =>
    refine ⟨st', rfl, ?_⟩
    simp only [hs] at h
    exact ((Except.ok.injEq _ _).mp h).symm
  | error e => simp [hs] at h

lemma register_labels_preserves_get {n : String} {v : Nat} :
    ∀ {pairs : List (String × Nat)} {ctx ctx' : AssemblerContext},
      register_labels ctx pairs = .ok ctx' →
      ctx.symbol_table.get n = .ok v → ctx'.symbol_table.get n = .ok v := by
  intro pairs
  induction pairs with
  | nil =>
    intro ctx ctx' h hget
    unfold register_labels at h
    cases h
    exact hget
  | cons hd tl ih =>
    intro ctx ctx' h hget
    unfold register_labels at h
    cases hr : ctx.register_label hd.1 hd.2 with
    | error e => simp [hr] at h
    | ok ctx₁ =>
      simp only [hr] at h
      obtain ⟨st', hset, rfl⟩ := register_label_ok hr
      exact ih h (set_preserves_get hget hset)

lemma register_labels_resolves {n : String} {index : Nat} :
    ∀ {pairs : List (String × Nat)} {ctx ctx' : AssemblerContext},
      register_labels ctx pairs = .ok ctx' → (n, index) ∈ pairs →
      ctx'.symbol_table.get n = .ok (index % 65536) := by
  intro pairs
  induction pairs with
  | nil => intro ctx ctx' _ hmem; simp at hmem
  | cons hd tl ih =>
    intro ctx ctx' h hmem
    unfold register_labels at h
    cases hr : ctx.register_label hd.1 hd.2 with
    | error e => simp [hr] at h
    | ok ctx₁ =>
      simp only [hr] at h
      rcases List.mem_cons.mp hmem with heq | hmem'
      · obtain ⟨st', hset, rfl⟩ := register_label_ok hr
        have : hd = (n, index) := heq.symm
        subst this
        exact register_labels_preserves_get h (set_get_self hset)
      · exact ih h hmem'

/-- C1: all (label, index) pairs produced by the parser are registered before
any instruction is encoded, so a label appearing after `k` instruction lines
is paired with (and resolves to) address `k`; and on the ten-line
forward-reference program of spec §8, LOOP resolves to 2, END to 8 and the
variable `i` to 16 in both of its occurrences (output words 0 and 2). -/
theorem C1_two_pass_label_resolution :
    (∀ pre post name,
      (name, instruction_line_count pre) ∈
        (parse_str (pre ++ Line.label name :: post)).labels) ∧
    (∀ (ctx ctx' : AssemblerContext) (pairs : List (String × Nat))
        (name : String) (index : Nat),
      register_labels ctx pairs = .ok ctx' → (name, index) ∈ pairs →
      index ≤ 32767 → ctx'.symbol_table.get name = .ok index) ∧
    ((register_labels AssemblerContext.default
        (parse_str example_program_ten).labels).map
        (fun ctx => (ctx.symbol_table.get "LOOP", ctx.symbol_table.get "END"))
      = .ok (.ok 2, .ok 8)) ∧
    assemble example_program_ten =
      .ok [16, 0b1110111111001000, 16, 0b1111110000010000,
           8, 0b1110001100000010, 8, 0b1110101010000111] := by
  refine ⟨?_, ?_, by decide, by decide⟩
  · intro pre post name
    unfold parse_str
    rw [show pre ++ Line.label name :: post =
          (pre ++ [Line.label name]) ++ post by simp,
        parse_str_go_append, parse_str_go_append]
    apply parse_str_go_labels_mono
    have hlen := parse_str_go_instructions_length pre [] []
    simp only [parse_str_go, List.length_nil, Nat.zero_add] at hlen ⊢
    apply List.mem_append_right
    simp [hlen]
  · intro ctx ctx' pairs name index h hmem hle
    have := register_labels_resolves h hmem
    rwa [Nat.mod_eq_of_lt (by omega)] at this

/-- Witness for C1: a label after one instruction line is paired with index 1,
and a registered pair resolves through the table. -/
theorem C1_two_pass_label_resolution_witness :
    (("L", 1) ∈ (parse_str ([Line.at_instruction (AValue.Literal 0)] ++
        Line.label "L" :: [])).labels) ∧
    (AssemblerContext.mk ⟨[("L", 2)], 16⟩ 16 0 []).symbol_table.get "L" =
      .ok 2 :=
  ⟨C1_two_pass_label_resolution.1 [Line.at_instruction (AValue.Literal 0)]
      [] "L",
   C1_two_pass_label_resolution.2.1 AssemblerContext.default
      (AssemblerContext.mk ⟨[("L", 2)], 16⟩ 16 0 []) [("L", 2)] "L" 2
      (by decide) (by decide) (by decide)⟩

/-- C2: the six-line program of spec §8 assembles to exactly the six expected
16-bit words in order, and every C-word is the fixed `111` prefix OR the
table-looked-up destination, computation and jump groups, an absent
destination or jump contributing an all-zero group. -/
theorem C2_six_line_program_encoding :
    assemble example_program_six =
      .ok [2, 0b1110110000010000, 3, 0b1110000010010000,
           0, 0b1110001100001000] ∧
    (∀ d c j bd bc bj, CInstruction.DEST_TABLE d = some bd →
      CInstruction.COMP_TABLE c = some bc →
      CInstruction.JMP_TABLE j = some bj →
      CInstruction.compile ⟨some d, c, some j⟩ =
        .ok (((0b1110000000000000 ||| bd) ||| bc) ||| bj)) ∧
    (∀ c bc, CInstruction.COMP_TABLE c = some bc →
      CInstruction.compile ⟨none, c, none⟩ =
        .ok (((0b1110000000000000 ||| 0) ||| bc) ||| 0)) := by
  refine ⟨by decide, ?_, ?_⟩
  · intro d c j bd bc bj hd hc hj
    simp [CInstruction.compile, CInstruction.destination_bits,
          CInstruction.computation_bits, CInstruction.jump_bits, hd, hc, hj]
  · intro c bc hc
    simp [CInstruction.compile, CInstruction.destination_bits,
          CInstruction.computation_bits, CInstruction.jump_bits, hc]

/-- Witness for C2: the destination, computation and jump groups of `D=A+1;JGT`
combine by OR under the fixed prefix. -/
theorem C2_six_line_program_encoding_witness :
    CInstruction.compile ⟨some "D", "A+1", some "JGT"⟩ =
      .ok (((0b1110000000000000 ||| 0b0000000000010000) |||
            0b0000110111000000) ||| 0b0000000000000001) :=
  C2_six_line_program_encoding.2.1 "D" "A+1" "JGT" _ _ _ rfl rfl rfl

/-- C3: `SymbolTable::get` prefers built-ins, then user entries, and otherwise
fails with `NotDefined`; `SymbolTable::set` unconditionally rejects built-in
names, rejects names already in the user map, and otherwise records the value
so a subsequent `get` returns it. -/
theorem C3_symbol_table_contract :
    ∀ (st : SymbolTable) (name : String) (value : Nat),
      (∀ b, BUILT_IN name = some b →
        st.get name = .ok b ∧
        st.set name value = .error (.RedefinedBuiltIn name)) ∧
      (BUILT_IN name = none → ∀ v, st.table.lookup name = some v →
        st.get name = .ok v ∧ st.set name value = .error (.Redefined name)) ∧
      (BUILT_IN name = none → st.table.lookup name = none →
        st.get name = .error (.NotDefined name) ∧
        ∃ st', st.set name value = .ok st' ∧ st'.get name = .ok value) := by
  intro st name value
  refine ⟨?_, ?_, ?_⟩
  · intro b hb
    constructor
    · simp [SymbolTable.get, hb]
    · simp [SymbolTable.set, hb]
  · intro hb v hv
    constructor
    · simp [SymbolTable.get, hb, hv]
    · simp [SymbolTable.set, hb, hv]
  · intro hb hv
    refine ⟨by simp [SymbolTable.get, hb, hv], ?_⟩
    refine ⟨{ st with table := (name, value) :: st.table }, ?_, ?_⟩
    · simp [SymbolTable.set, hb, hv]
    · simp [SymbolTable.get, hb, List.lookup]

/-- Witness for C3: built-in `SCREEN` wins over everything, a set symbol
round-trips, an unset one is `NotDefined`. -/
theorem C3_symbol_table_contract_witness :
    (SymbolTable.new.get "SCREEN" = .ok 16384 ∧
      SymbolTable.new.set "SCREEN" 7 =
        .error (.RedefinedBuiltIn "SCREEN")) ∧
    (SymbolTable.new.get "x" = .error (.NotDefined "x") ∧
      ∃ st', SymbolTable.new.set "x" 7 = .ok st' ∧ st'.get "x" = .ok 7) :=
  ⟨(C3_symbol_table_contract SymbolTable.new "SCREEN" 7).1 16384 rfl,
   (C3_symbol_table_contract SymbolTable.new "x" 7).2.2 rfl rfl⟩

/-- C7 counterexample: `"70000"` is a well-formed numeral whose value exceeds
32767, yet `HackInt::parse` reports the integer-parse error (u16 overflow),
not the distinct range error the claim promises for out-of-range numbers. -/
theorem C7_counterexample_parse_overflow :
    "70000".data.all Char.isDigit = true ∧ (70000 : Nat) > 32767 ∧
    HackInt.parse "70000" = .error (.ParseInt .posOverflow) ∧
    (ParseHackIntError.ParseInt .posOverflow) ≠ .SizeExceeded := by
  refine ⟨by decide, by decide, by decide, by decide⟩

/-- C7 as amended: `try_new` succeeds exactly on [0, 32767] and round-trips;
`parse` reports the distinct range error for a well-formed numeral that is out
of range *provided it fits in a u16* (value ≤ 65535); any input the u16 parse
rejects — malformed text, and also well-formed numerals above 65535 — is
reported as the integer-parse error. -/
theorem C7_bounded_int_amended :
    (∀ v, v ≤ 32767 → HackInt.try_new v = .ok v) ∧
    (∀ v, 32767 < v → HackInt.try_new v = .error .SizeExceeded) ∧
    (∀ s n, HackInt.parseU16 s = .ok n → 32767 < n →
      HackInt.parse s = .error .SizeExceeded) ∧
    (∀ s n, HackInt.parseU16 s = .ok n → n ≤ 32767 →
      HackInt.parse s = .ok n) ∧
    (∀ s e, HackInt.parseU16 s = .error e →
      HackInt.parse s = .error (.ParseInt e)) := by
  refine ⟨?_, ?_, ?_, ?_, ?_⟩
  · intro v hv; simp [HackInt.try_new, HackInt.MAX]; omega
  · intro v hv; simp [HackInt.try_new, HackInt.MAX]; omega
  · intro s n hs hn
    simp [HackInt.parse, hs, HackInt.try_new, HackInt.MAX, hn]
  · intro s n hs hn
    simp [HackInt.parse, hs, HackInt.try_new, HackInt.MAX]; omega
  · intro s e hs
    simp [HackInt.parse, hs]

/-- Witness for C7's amended statement: 42 round-trips, 32768 is rejected,
"40000" gets the range error, "12" parses, "abc" gets the parse error. -/
theorem C7_bounded_int_amended_witness :
    HackInt.try_new 42 = .ok 42 ∧
    HackInt.try_new 32768 = .error .SizeExceeded ∧
    HackInt.parse "40000" = .error .SizeExceeded ∧
    HackInt.parse "12" = .ok 12 ∧
    HackInt.parse "abc" = .error (.ParseInt .invalidDigit) :=
  ⟨C7_bounded_int_amended.1 42 (by decide),
   C7_bounded_int_amended.2.1 32768 (by decide),
   C7_bounded_int_amended.2.2.1 "40000" 40000 (by decide) (by decide),
   C7_bounded_int_amended.2.2.2.1 "12" 12 (by decide) (by decide),
   C7_bounded_int_amended.2.2.2.2 "abc" .invalidDigit (by decide)⟩

/-- C8: in `COMP_TABLE`, both operand orders of the commutative operators
`+`, `&`, `|` (over D,A and over D,M) encode to the same computation bits,
while subtraction keeps operand order: `D-A` and `A-D` differ, as do `D-M`
and `M-D`. -/
theorem C8_commutative_operand_encodings :
    CInstruction.COMP_TABLE "D+A" = CInstruction.COMP_TABLE "A+D" ∧
    CInstruction.COMP_TABLE "D&A" = CInstruction.COMP_TABLE "A&D" ∧
    CInstruction.COMP_TABLE "D|A" = CInstruction.COMP_TABLE "A|D" ∧
    CInstruction.COMP_TABLE "D+M" = CInstruction.COMP_TABLE "M+D" ∧
    CInstruction.COMP_TABLE "D&M" = CInstruction.COMP_TABLE "M&D" ∧
    CInstruction.COMP_TABLE "D|M" = CInstruction.COMP_TABLE "M|D" ∧
    CInstruction.COMP_TABLE "D-A" ≠ CInstruction.COMP_TABLE "A-D" ∧
    CInstruction.COMP_TABLE "D-M" ≠ CInstruction.COMP_TABLE "M-D" := by
  refine ⟨by decide, by decide, by decide, by decide, by decide, by decide,
          by decide, by decide⟩

lemma get_or_create_ok_cases {ctx ctx' : AssemblerContext} {name : String}
    {addr : Nat} (h : ctx.get_or_create_variable name = (.ok addr, ctx')) :
    (ctx.symbol_table.get name = .ok addr ∧ ctx' = ctx) ∨
    ((∃ e, ctx.symbol_table.get name = .error e) ∧
      addr = ctx.current_variable_address ∧
      ctx.current_variable_address < MEMORY_SIZE ∧
      ∃ st', ctx.symbol_table.set name addr = .ok st' ∧
        ctx' = { ctx with
                   symbol_table := st',
                   current_variable_address :=
                     ctx.current_variable_address + 1 }) := by
  unfold AssemblerContext.get_or_create_variable at h
  split at h
  · rename_i v hg
    left
    simp only [Prod.mk.injEq, Except.ok.injEq] at h
    obtain ⟨rfl, rfl⟩ := h
    exact ⟨hg, rfl⟩
  · rename_i e hg
    right
    split at h
    · simp at h
    · rename_i hlt
      split at h
      · rename_i e' hs
        simp at h
      · rename_i st' hs
        simp only [Prod.mk.injEq, Except.ok.injEq] at h
        obtain ⟨rfl, rfl⟩ := h
        exact ⟨⟨e, hg⟩, rfl, by omega, st', hs, rfl⟩

/-- C4: variable allocation through `get_or_create_variable` is strictly
sequential: an allocation hands out exactly the current cursor and advances
the cursor by exactly one, registering the name at that address; and from a
fresh context two distinct fresh symbols receive 16 and 17, while
re-encountering the first resolves to 16 with no state change. -/
theorem C4_sequential_variable_allocation :
    (∀ (ctx ctx' : AssemblerContext) (name : String) (addr : Nat),
      ctx.get_or_create_variable name = (.ok addr, ctx') →
      (ctx.symbol_table.get name = .ok addr ∧ ctx' = ctx) ∨
      (addr = ctx.current_variable_address ∧
       ctx'.current_variable_address = ctx.current_variable_address + 1 ∧
       ctx'.symbol_table.get name = .ok addr)) ∧
    (∀ a b : String, BUILT_IN a = none → BUILT_IN b = none → a ≠ b →
      ∃ ctx1 ctx2 : AssemblerContext,
        AssemblerContext.default.get_or_create_variable a = (.ok 16, ctx1) ∧
        ctx1.get_or_create_variable b = (.ok 17, ctx2) ∧
        ctx2.get_or_create_variable a = (.ok 16, ctx2)) := by
  constructor
  · intro ctx ctx' name addr h
    rcases get_or_create_ok_cases h with ⟨hg, rfl⟩ | ⟨_, rfl, _, st', hs, rfl⟩
    · exact Or.inl ⟨hg, rfl⟩
    · exact Or.inr ⟨rfl, rfl, set_get_self hs⟩
  · intro a b ha hb hab
    have hba : (b == a) = false := by simpa using (Ne.symm hab)
    have hab' : (a == b) = false := by simpa using hab
    refine ⟨⟨⟨[(a, 16)], 16⟩, 17, 0, []⟩,
            ⟨⟨[(b, 17), (a, 16)], 16⟩, 18, 0, []⟩, ?_, ?_, ?_⟩
    · simp [AssemblerContext.get_or_create_variable, AssemblerContext.default,
            SymbolTable.get, SymbolTable.set, SymbolTable.new, MEMORY_SIZE,
            ha, List.lookup]
    · simp [AssemblerContext.get_or_create_variable, SymbolTable.get,
            SymbolTable.set, MEMORY_SIZE, ha, hb, hba, List.lookup]
    · simp [AssemblerContext.get_or_create_variable, SymbolTable.get,
            SymbolTable.set, MEMORY_SIZE, ha, hab', List.lookup]

/-- Witness for C4: from a fresh context, `x` gets 16, `y` gets 17, and `x`
again resolves to 16 without reallocation. -/
theorem C4_sequential_variable_allocation_witness :
    ∃ ctx1 ctx2 : AssemblerContext,
      AssemblerContext.default.get_or_create_variable "x" = (.ok 16, ctx1) ∧
      ctx1.get_or_create_variable "y" = (.ok 17, ctx2) ∧
      ctx2.get_or_create_variable "x" = (.ok 16, ctx2) :=
  C4_sequential_variable_allocation.2 "x" "y" rfl rfl (by decide)

/-- C5: an unresolved name with the cursor at or past `MEMORY_SIZE` fails with
the `TooManyVariables` capacity error (state unchanged), so, with the cursor
at or above its initial value 16, every address an allocation hands out lies
in [16, 16383]. -/
theorem C5_variable_capacity :
    (∀ (ctx : AssemblerContext) (name : String) (e : SymbolTableGetError),
      ctx.symbol_table.get name = .error e →
      MEMORY_SIZE ≤ ctx.current_variable_address →
      ctx.get_or_create_variable name = (.error .TooManyVariables, ctx)) ∧
    (∀ (ctx ctx' : AssemblerContext) (name : String) (addr : Nat)
        (e : SymbolTableGetError),
      16 ≤ ctx.current_variable_address →
      ctx.symbol_table.get name = .error e →
      ctx.get_or_create_variable name = (.ok addr, ctx') →
      16 ≤ addr ∧ addr ≤ 16383) := by
  constructor
  · intro ctx name e hg hge
    unfold AssemblerContext.get_or_create_variable
    simp [hg, hge]
  · intro ctx ctx' name addr e h16 hg h
    rcases get_or_create_ok_cases h with ⟨hok, _⟩ | ⟨_, rfl, hlt, _⟩
    · rw [hg] at hok; cases hok
    · have : MEMORY_SIZE = 16384 := rfl
      omega

/-- Witness for C5: at cursor 16384 allocation of a fresh name fails with the
capacity error and leaves the context unchanged; from a fresh context the
allocated address 16 lies in [16, 16383]. -/
theorem C5_variable_capacity_witness :
    (⟨SymbolTable.new, 16384, 0, []⟩ : AssemblerContext).get_or_create_variable
        "x" = (.error .TooManyVariables, ⟨SymbolTable.new, 16384, 0, []⟩) ∧
    (16 ≤ 16 ∧ 16 ≤ 16383) :=
  ⟨C5_variable_capacity.1 ⟨SymbolTable.new, 16384, 0, []⟩ "x"
      (.NotDefined "x") (by decide) (by decide),
   C5_variable_capacity.2 AssemblerContext.default
      ⟨⟨[("x", 16)], 16⟩, 17, 0, []⟩ "x" 16 (.NotDefined "x")
      (by decide) (by decide) (by decide)⟩

/-- C6: a full output buffer makes `push_instruction` fail with the
instruction-capacity error before appending; the error propagates so the whole
encoding loop fails; and an erroring run yields no word list at all. -/
theorem C6_instruction_capacity :
    (∀ (ctx : AssemblerContext) (bits : Nat), ROM_SIZE ≤ ctx.output.length →
      ctx.push_instruction bits = .error .TooManyInstructions) ∧
    (∀ (ctx : AssemblerContext) (v : Nat) (rest : List ParsedInstruction),
      ROM_SIZE ≤ ctx.output.length →
      feed_instructions ctx
          (.AInstruction ⟨.Literal v⟩ :: rest) =
        .error .TooManyInstructions) ∧
    (∀ (input : List Line) (e : AssemblerError), assemble input = .error e →
      ∀ words, assemble input ≠ .ok words) := by
  refine ⟨?_, ?_, ?_⟩
  · intro ctx bits h
    unfold AssemblerContext.push_instruction
    simp [h]
  · intro ctx v rest h
    unfold feed_instructions AssemblerContext.feed_instruction
    simp only [AInstruction.to_u16]
    unfold AssemblerContext.push_instruction
    simp [h]
  · intro input e he words
    rw [he]
    simp

/-- Witness for C6: with 32767 words already emitted the next push fails, the
loop fails, and a run that errors (duplicate label) produces no word list. -/
theorem C6_instruction_capacity_witness :
    (⟨SymbolTable.new, 16, 0, List.replicate 32767 0⟩ :
        AssemblerContext).push_instruction 5 =
      .error .TooManyInstructions ∧
    feed_instructions ⟨SymbolTable.new, 16, 0, List.replicate 32767 0⟩
        [.AInstruction ⟨.Literal 5⟩] = .error .TooManyInstructions ∧
    assemble [Line.label "L", Line.label "L"] ≠ .ok [] :=
  ⟨C6_instruction_capacity.1 ⟨SymbolTable.new, 16, 0, List.replicate 32767 0⟩
      5 (by rw [List.length_replicate]; exact Nat.le_refl _),
   C6_instruction_capacity.2.1 ⟨SymbolTable.new, 16, 0,
      List.replicate 32767 0⟩ 5 [] (by rw [List.length_replicate]; exact Nat.le_refl _),
   C6_instruction_capacity.2.2 [Line.label "L", Line.label "L"]
      (.SymbolTableSetError (.Redefined "L")) (by decide) []⟩

lemma parse_str_go_replicate_at (n v : Nat) :
    ∀ (i : List ParsedInstruction) (lb : List (String × Nat)),
      parse_str_go (List.replicate n (Line.at_instruction (.Literal v))) i lb =
        ⟨i ++ List.replicate n (.AInstruction ⟨.Literal v⟩), lb⟩ := by
  induction n with
  | zero => intro i lb; simp [parse_str_go]
  | succ n ih =>
    intro i lb
    rw [List.replicate_succ, List.replicate_succ]
    show parse_str_go _ (i ++ [.AInstruction ⟨.Literal v⟩]) lb = _
    rw [ih]
    simp

lemma parse_replicate_then_label (n v : Nat) (name : String) :
    (parse_str (List.replicate n (Line.at_instruction (.Literal v)) ++
        [Line.label name])).labels = [(name, n)] := by
  unfold parse_str
  rw [parse_str_go_append, parse_str_go_replicate_at]
  simp [parse_str_go]

/-- C9 (code bug): `register_label` stores the index through
`HackInt::new_unchecked(address as u16)` with no range check, so a program of
32768 instructions followed by a label — reachable, since the parser performs
no capacity check — constructs and stores the out-of-range value 32768, and an
index of 70000 is silently truncated to 4464, contradicting the invariant
that no value outside [0, 32767] is ever constructed. -/
theorem C9_register_label_unchecked :
    ((AssemblerContext.default.register_label "L" 32768).map
        (fun ctx => ctx.symbol_table.get "L") = .ok (.ok 32768)) ∧
    HackInt.MAX < 32768 ∧
    ((AssemblerContext.default.register_label "VAR" 70000).map
        (fun ctx => ctx.symbol_table.get "VAR") = .ok (.ok 4464)) ∧
    ((parse_str (List.replicate 32768 (Line.at_instruction (.Literal 0)) ++
        [Line.label "L"])).labels = [("L", 32768)]) ∧
    ((register_labels AssemblerContext.default
        (parse_str (List.replicate 32768 (Line.at_instruction (.Literal 0)) ++
          [Line.label "L"])).labels).map
        (fun ctx => ctx.symbol_table.get "L") = .ok (.ok 32768)) := by
  refine ⟨by decide, by decide, by decide,
          parse_replicate_then_label 32768 0 "L", ?_⟩
  rw [parse_replicate_then_label 32768 0 "L"]
  decide

/-- C10: when the symbol table already resolves the name,
`get_or_create_variable` returns that value and the whole context — mapping,
cursor and output buffer — is unchanged; and on any error result the context
is likewise unchanged (no partial mutation). -/
theorem C10_get_or_create_frame :
    (∀ (ctx : AssemblerContext) (name : String) (v : Nat),
      ctx.symbol_table.get name = .ok v →
      ctx.get_or_create_variable name = (.ok v, ctx)) ∧
    (∀ (ctx : AssemblerContext) (name : String) (e : AssemblerError),
      (ctx.get_or_create_variable name).1 = .error e →
      (ctx.get_or_create_variable name).2 = ctx) := by
  constructor
  · intro ctx name v hg
    unfold AssemblerContext.get_or_create_variable
    simp [hg]
  · intro ctx name e h
    unfold AssemblerContext.get_or_create_variable at h ⊢
    cases hg : ctx.symbol_table.get name with
    | ok v => simp [hg] at h ⊢
    | error e' =>
      simp only [hg] at h ⊢
      split at h
      · rename_i hge
        simp [hge]
      · rename_i hlt
        cases hs : ctx.symbol_table.set name ctx.current_variable_address with
        | error e'' => simp [hs, hlt] at h ⊢
        | ok st' => simp [hs, hlt] at h

/-- Witness for C10: the built-in `R0` resolves to 0 with the context intact,
and a capacity failure at cursor 16384 leaves the context intact. -/
theorem C10_get_or_create_frame_witness :
    AssemblerContext.default.get_or_create_variable "R0" =
      (.ok 0, AssemblerContext.default) ∧
    ((⟨SymbolTable.new, 16384, 0, []⟩ :
        AssemblerContext).get_or_create_variable "x").2 =
      ⟨SymbolTable.new, 16384, 0, []⟩ :=
  ⟨C10_get_or_create_frame.1 AssemblerContext.default "R0" 0 (by decide),
   C10_get_or_create_frame.2 ⟨SymbolTable.new, 16384, 0, []⟩ "x"
      .TooManyVariables (by decide)⟩
